import Mathlib

/-!
Verification of the statistics-refresh scheduler and its collaborators in the
youtube-analytics repository.

The TypeScript route handlers are shallowly embedded as Lean functions:

* JavaScript timestamps (`Date.getTime()` milliseconds) are modelled as exact
  rationals (`ℚ`); all arithmetic the code performs on them (`+`, `-`, `/`,
  comparisons) is rational arithmetic, which agrees with the source's IEEE
  doubles on every integral-millisecond input relevant to the interval policy.
* The external metadata source (YouTube Data API) and the system clock are
  oracles passed in as function parameters; one clock read of `new Date()` /
  `Date.now()` corresponds to one application of the `clock` parameter at the
  next read index.
* The persistent store (Supabase tables) is a list of rows; `upsert ... on
  conflict` and per-row `update` are explicit list transformations.
* Fallible store writes are modelled by boolean failure oracles; the embedded
  control flow mirrors the source, which only logs such errors and continues.
-/

/-- Models JavaScript `String.prototype.startsWith` (character-wise). -/
def jsStartsWith (s pre : String) : Bool :=
  pre.data.isPrefixOf s.data

/-- Models JavaScript `String.prototype.toLowerCase` (character-wise; the
inputs of interest are ASCII). -/
def jsToLower (s : String) : String := ⟨s.data.map Char.toLower⟩

/-- Does the string contain the given character?  Models `s.includes('c')`. -/
def containsChar (s : String) (c : Char) : Bool :=
  s.data.contains c

/-- Digits prefix accumulation for `parseInt(s, 10)`. -/
def parseDigits (cs : List Char) : Option Nat :=
  let ds := cs.takeWhile (·.isDigit)
  if ds.isEmpty then none
  else some (ds.foldl (fun a c => a * 10 + (c.toNat - 48)) 0)

/-- Models JavaScript `parseInt(s, 10)`: optional sign followed by a digit
prefix; `none` stands for `NaN` (no digits to parse). -/
def jsParseInt (s : String) : Option Int :=
  match s.data with
  | '-' :: rest => (parseDigits rest).map (fun n => -(n : Int))
  | '+' :: rest => (parseDigits rest).map (fun n => (n : Int))
  | cs => (parseDigits cs).map (fun n => (n : Int))

/-- Models the idiom `field ? parseInt(field, 10) : null` applied to an
optional statistics string: a missing or empty (falsy) string yields `null`,
otherwise the parse result.  `none` covers both `null` and an unparseable
(`NaN`) value, which the claims never need to distinguish. -/
def statToCount : Option String → Option Int
  | none => none
  | some s => if s = "" then none else jsParseInt s

/-! ## Data model of the `videos` table and the scheduler's working data
(from `src/app/api/scheduledVideoStatsFetch/route.ts`). -/

/-- A row of the `videos` table, restricted to the columns the scheduler and
the channel-videos import read or write (other metadata columns such as
`title` are never involved in the claims).  Timestamps are epoch
milliseconds as `ℚ`. -/
structure VideoRow where
  id : String
  youtube_video_id : String
  published_at : Option ℚ
  next_stat_fetch_at : Option ℚ
  stat_fetch_frequency_hours : Option ℚ
  last_stat_logged_at : Option ℚ
  view_count : Option Int
  like_count : Option Int
  comment_count : Option Int
deriving DecidableEq, Inhabited

/-- The `statistics` object of one item of a `youtube.videos.list` response,
as the raw strings the API returns. -/
structure VideoStatsRaw where
  viewCount : Option String
  likeCount : Option String
  commentCount : Option String
deriving DecidableEq, Inhabited

/-- One item of a `youtube.videos.list` response (`videoData` in the source). -/
structure FetchedItem where
  id : Option String
  statistics : Option VideoStatsRaw
deriving DecidableEq, Inhabited

/-- A row pushed into `videoStatsLogsToInsert` (`VideoStatsLogToSave`). -/
structure VideoStatsLogRow where
  video_id : String
  fetched_at : ℚ
  view_count : Option Int
  like_count : Option Int
  comment_count : Option Int
deriving DecidableEq, Inhabited

/-- An element of `videoScheduleUpdates`: the payload of one per-video
`update` issued at the end of the pass. -/
structure ScheduleUpdate where
  id : String
  next_stat_fetch_at : ℚ
  last_stat_logged_at : ℚ
  stat_fetch_frequency_hours : ℚ
  view_count : Option Int
  like_count : Option Int
  comment_count : Option Int
deriving DecidableEq, Inhabited

/-- `(currentTime.getTime() - publishedDate.getTime()) / (1000 * 60 * 60)`. -/
def hoursSincePublished (currentTime published : ℚ) : ℚ :=
  (currentTime - published) / (1000 * 60 * 60)

/-- The age-based interval policy: default `24`, overwritten to `1` when
`hoursSincePublished <= 24`, else to `3` when `hoursSincePublished <= 72`. -/
def nextFetchFrequencyHours (h : ℚ) : ℚ :=
  if h ≤ 24 then 1 else if h ≤ 72 then 3 else 24

/-- The log row pushed for one accepted response item. -/
def mkLogRow (v : VideoRow) (stats : VideoStatsRaw) (fetchedAt : ℚ) :
    VideoStatsLogRow :=
  { video_id := v.id
    fetched_at := fetchedAt
    view_count := statToCount stats.viewCount
    like_count := statToCount stats.likeCount
    comment_count := statToCount stats.commentCount }

/-- The schedule update pushed for one accepted response item:
`nextFetchTime = currentTime.getTime() + nextFetchFrequencyHours * 60 * 60 * 1000`,
with `published_at || 0` for a null publish time. -/
def mkScheduleUpdate (v : VideoRow) (stats : VideoStatsRaw)
    (currentTime fetchedAt : ℚ) : ScheduleUpdate :=
  let freq := nextFetchFrequencyHours
    (hoursSincePublished currentTime (v.published_at.getD 0))
  { id := v.id
    last_stat_logged_at := fetchedAt
    next_stat_fetch_at := currentTime + freq * (60 * 60 * 1000)
    stat_fetch_frequency_hours := freq
    view_count := statToCount stats.viewCount
    like_count := statToCount stats.likeCount
    comment_count := statToCount stats.commentCount }

/-- `videosToUpdate.find(v => v.youtube_video_id === videoData.id)`. -/
def findCorresponding (vs : List VideoRow) (vid : Option String) :
    Option VideoRow :=
  vs.find? (fun v => vid == some v.youtube_video_id)

/-- Processing of one response item: the guard
`videoData.id && videoData.statistics && correspondingVideoInDb` (a missing or
empty — falsy — id fails), producing the log row and the schedule update. -/
def processItem (vs : List VideoRow) (currentTime fetchedAt : ℚ)
    (item : FetchedItem) : Option (VideoStatsLogRow × ScheduleUpdate) :=
  match item.id, item.statistics, findCorresponding vs item.id with
  | some vid, some stats, some v =>
    if vid = "" then none
    else some (mkLogRow v stats fetchedAt,
               mkScheduleUpdate v stats currentTime fetchedAt)
  | _, _, _ => none

/-- The inner loops over response items.  `k` counts the `new Date()` reads
performed so far inside the loop: the source evaluates
`const fetchedAtISO = new Date().toISOString()` once per accepted item, so the
clock index advances only when the guard passes. -/
def processItems (vs : List VideoRow) (currentTime : ℚ) (clock : ℕ → ℚ) :
    List FetchedItem → ℕ → List VideoStatsLogRow × List ScheduleUpdate
  | [], _ => ([], [])
  | item :: rest, k =>
    match processItem vs currentTime (clock k) item with
    | some lu =>
      let r := processItems vs currentTime clock rest (k + 1)
      (lu.1 :: r.1, lu.2 :: r.2)
    | none => processItems vs currentTime clock rest k

/-- Fuel-based worker for `chunksOf50` (the fuel, initially the list length,
only enforces termination and never runs out). -/
def chunksOf50Aux : ℕ → List String → List (List String)
  | 0, _ => []
  | _, [] => []
  | fuel + 1, a :: rest =>
    ((a :: rest).take 50) :: chunksOf50Aux fuel ((a :: rest).drop 50)

/-- `for (let i = 0; i < ids.length; i += 50) { ids.slice(i, i + 50) ... }`:
the successive batches of at most 50 ids sent to the external source. -/
def chunksOf50 (l : List String) : List (List String) :=
  chunksOf50Aux l.length l

/-- The due-row selection `.lte('next_stat_fetch_at', currentTime)`; as in
SQL, a `NULL` column is not selected. -/
def isDue (currentTime : ℚ) (v : VideoRow) : Bool :=
  match v.next_stat_fetch_at with
  | some t => t ≤ currentTime
  | none => false

/-- The concatenated items of all batch responses, in processing order. -/
def passItems (store : List VideoRow) (currentTime : ℚ)
    (api : List String → List FetchedItem) : List FetchedItem :=
  ((chunksOf50 ((store.filter (isDue currentTime)).map
      (·.youtube_video_id))).map api).flatten

/-- The accumulated outputs of one scheduler pass. -/
structure PassOutput where
  selected : List VideoRow
  apiCalls : List (List String)
  logs : List VideoStatsLogRow
  updates : List ScheduleUpdate

/-- One invocation of the `GET` handler of
`src/app/api/scheduledVideoStatsFetch/route.ts`, up to (and excluding) the
store writes: select the due rows, fetch their statistics in batches of 50,
and accumulate the log rows and schedule updates.  `currentTime` is the
`new Date()` captured at the start; `clock` supplies the per-item
`new Date()` reads; `api` is the external source's response per batch call. -/
def scheduledVideoStatsFetch (store : List VideoRow) (currentTime : ℚ)
    (clock : ℕ → ℚ) (api : List String → List FetchedItem) : PassOutput :=
  let videosToUpdate := store.filter (isDue currentTime)
  let batches := chunksOf50 (videosToUpdate.map (·.youtube_video_id))
  let items := (batches.map api).flatten
  let r := processItems videosToUpdate currentTime clock items 0
  ⟨videosToUpdate, batches, r.1, r.2⟩

/-- The effect of one `update(...).eq('id', update.id)` on one stored row. -/
def applyUpdate (row : VideoRow) (u : ScheduleUpdate) : VideoRow :=
  if row.id = u.id then
    { row with
      next_stat_fetch_at := some u.next_stat_fetch_at
      last_stat_logged_at := some u.last_stat_logged_at
      stat_fetch_frequency_hours := some u.stat_fetch_frequency_hours
      view_count := u.view_count
      like_count := u.like_count
      comment_count := u.comment_count }
  else row

/-- Applying the schedule updates one statement after the other to the
whole table. -/
def applyUpdates (store : List VideoRow) (us : List ScheduleUpdate) :
    List VideoRow :=
  us.foldl (fun s u => s.map (fun r => applyUpdate r u)) store

/-! ## Effect model of the pass's store writes (for the write-ordering and
failure-independence claims). -/

/-- A store operation issued by the scheduler pass: the single batch insert
into `video_stats_logs`, or one per-row `update` of `videos`. -/
inductive VideoStoreOp where
  | insertLogs : List VideoStatsLogRow → VideoStoreOp
  | updateVideo : ScheduleUpdate → VideoStoreOp
deriving DecidableEq, Inhabited

def VideoStoreOp.isInsert : VideoStoreOp → Bool
  | .insertLogs _ => true
  | .updateVideo _ => false

def VideoStoreOp.isUpdate : VideoStoreOp → Bool
  | .insertLogs _ => false
  | .updateVideo _ => true

/-- The sequence of store operations the handler issues after accumulating:
`if (videoStatsLogsToInsert.length > 0)` one batch insert, then
`if (videoScheduleUpdates.length > 0)` one update per accumulated row. -/
def passOps (out : PassOutput) : List VideoStoreOp :=
  (if out.logs.isEmpty then [] else [VideoStoreOp.insertLogs out.logs]) ++
    out.updates.map VideoStoreOp.updateVideo

/-- The mutable store the pass writes to. -/
structure DbState where
  videos : List VideoRow
  videoLogs : List VideoStatsLogRow
deriving DecidableEq, Inhabited

/-- The effect of one successful store operation. -/
def applyOp (st : DbState) : VideoStoreOp → DbState
  | .insertLogs rows => { st with videoLogs := st.videoLogs ++ rows }
  | .updateVideo u =>
    { st with videos := st.videos.map (fun r => applyUpdate r u) }

/-- Executing the operation sequence against failure oracle `fails` (the
`k`-th issued operation fails iff `fails k`).  Mirroring the source, a failed
operation is only logged: execution continues with the next operation, no
rollback, no abort. -/
def execOps (fails : ℕ → Bool) : DbState → List VideoStoreOp → ℕ → DbState
  | st, [], _ => st
  | st, op :: rest, k =>
    execOps fails (if fails k then st else applyOp st op) rest (k + 1)

/-! ## The on-demand channel refresh
(from `src/app/api/getChannelInfo/route.ts`, `POST`, after the identifier is
resolved and the channel data fetched). -/

/-- The `statistics` object of a `youtube.channels.list` item. -/
structure ChannelStatsRaw where
  subscriberCount : Option String
  videoCount : Option String
  viewCount : Option String
deriving DecidableEq, Inhabited

/-- A row of the `channels` table (columns relevant to the claims). -/
structure ChannelRow where
  id : String
  youtube_channel_id : String
  subscriber_count : Option Int
  video_count : Option Int
  total_view_count : Option Int
  last_fetched_at : ℚ
deriving DecidableEq, Inhabited

/-- A row of `channel_stats_logs` (`ChannelStatsLogToSave`). -/
structure ChannelStatsLogRow where
  channel_id : String
  created_at : ℚ
  subscriber_count : Option Int
  video_count : Option Int
  total_view_count : Option Int
deriving DecidableEq, Inhabited

/-- The persistent store touched by the channel-info request. -/
structure ChannelDb where
  channels : List ChannelRow
  channelLogs : List ChannelStatsLogRow
deriving DecidableEq, Inhabited

/-- `upsert(channelRecordToUpsert, { onConflict: 'youtube_channel_id' })`
followed by `.select('id').single()`: update the conflicting row in place if
one exists (keeping its internal `id`), otherwise insert a new row with the
fresh internal id; either way return the row's internal id. -/
def upsertChannel (freshId : String) (tbl : List ChannelRow) (ytid : String)
    (stats : ChannelStatsRaw) (nowISO : ℚ) : List ChannelRow × String :=
  match tbl.find? (fun r => r.youtube_channel_id == ytid) with
  | some r =>
    (tbl.map (fun r' =>
      if r'.youtube_channel_id = ytid then
        { r' with
          subscriber_count := statToCount stats.subscriberCount
          video_count := statToCount stats.videoCount
          total_view_count := statToCount stats.viewCount
          last_fetched_at := nowISO }
      else r'), r.id)
  | none =>
    (tbl ++ [{ id := freshId
               youtube_channel_id := ytid
               subscriber_count := statToCount stats.subscriberCount
               video_count := statToCount stats.videoCount
               total_view_count := statToCount stats.viewCount
               last_fetched_at := nowISO }], freshId)

/-- The persistence tail of the `POST` handler: upsert the channel row; on
upsert failure return HTTP 500 immediately (no stats-log insert is reached);
on success build `statsLogToInsert` from the freshly fetched counts and
attempt exactly one insert into `channel_stats_logs` (a failed insert is only
logged).  `upsertFails` / `logInsertFails` model the store's error returns. -/
def getChannelInfoPersist (freshId ytid : String) (stats : ChannelStatsRaw)
    (nowISO : ℚ) (upsertFails logInsertFails : Bool) (db : ChannelDb) :
    ℕ × ChannelDb :=
  if upsertFails then (500, db)
  else
    let r := upsertChannel freshId db.channels ytid stats nowISO
    let log : ChannelStatsLogRow :=
      { channel_id := r.2
        created_at := nowISO
        subscriber_count := statToCount stats.subscriberCount
        video_count := statToCount stats.videoCount
        total_view_count := statToCount stats.viewCount }
    (200,
      { channels := r.1
        channelLogs :=
          if logInsertFails then db.channelLogs else db.channelLogs ++ [log] })

/-! ## The identifier resolver
(`extractChannelIdentifier` from the unnamed `getChannelInfo` revision, and
`extractDirectIdentifier` plus the POST fallback from
`src/app/api/getChannelInfo/route.ts`).

URL parsing (`new URL(...)` and splitting the pathname) is abstracted by the
oracle `parseUrl`, returning the nonempty pathname segments, or `none` when
the constructor throws; the name/handle search against the external source is
the oracle `search`, returning the top result's channel id, or `none` when
the response has no items.  Each resolver also returns the number of search
calls it issued. -/

/-- The outcome of a resolver: a canonical channel id, a legacy username, or
a resolution failure (the `{ error: ... }` returns, messages elided). -/
inductive ResolveResult where
  | chanId : String → ResolveResult
  | forUsername : String → ResolveResult
  | failure : ResolveResult
deriving DecidableEq, Inhabited

/-- `pathParts[1]?.startsWith('UC') && pathParts[1].length === 24`. -/
def secondPartIsUC24 : Option String → Bool
  | some s => jsStartsWith s "UC" && s.length == 24
  | none => false

/-- `extractChannelIdentifier` of the unnamed revision (`src/unnamed/part_009`):
URL strategies first (only when the input looks like a URL), then a bare
`@handle`, then a bare 24-character `UC` id, else failure. -/
def extractChannelIdentifier (parseUrl : String → Option (List String))
    (search : String → Option String) (url : String) : ResolveResult × ℕ :=
  let urlish := containsChar url '/' || containsChar url '.' ||
    jsStartsWith (jsToLower url) "http"
  let parsed := if urlish then
    parseUrl (if jsStartsWith url "http" then url else "http://" ++ url)
  else none
  match parsed with
  | some (p0 :: ps) =>
    let pathParts := p0 :: ps
    if p0 = "channel" ∧ secondPartIsUC24 (pathParts.get? 1) then
      (.chanId ((pathParts.get? 1).getD ""), 0)
    else if p0 = "user" ∧ (pathParts.get? 1).isSome then
      (.forUsername ((pathParts.get? 1).getD ""), 0)
    else
      let lastPart := pathParts.getLast (by simp)
      if jsStartsWith lastPart "@" ∧ 1 < lastPart.length then
        match search lastPart with
        | some cid => (.chanId cid, 1)
        | none => (.failure, 1)
      else (.failure, 0)
  | _ =>
    if jsStartsWith url "@" ∧ 1 < url.length then
      match search url with
      | some cid => (.chanId cid, 1)
      | none => (.failure, 1)
    else if jsStartsWith url "UC" ∧ url.length = 24 then (.chanId url, 0)
    else (.failure, 0)

/-- `extractDirectIdentifier` of `src/app/api/getChannelInfo/route.ts`: URL
strategies (with a `forUsername` fallback on the last path segment), or a
bare `@handle`; it has no bare-`UC` branch — anything else is a failure. -/
def extractDirectIdentifier (parseUrl : String → Option (List String))
    (search : String → Option String) (inputValue : String) :
    ResolveResult × ℕ :=
  if containsChar inputValue '/' || containsChar inputValue '.' then
    match parseUrl (if jsStartsWith inputValue "http" then inputValue
                    else "http://" ++ inputValue) with
    | some (p0 :: ps) =>
      let pathParts := p0 :: ps
      if p0 = "channel" ∧ secondPartIsUC24 (pathParts.get? 1) then
        (.chanId ((pathParts.get? 1).getD ""), 0)
      else if p0 = "user" ∧ (pathParts.get? 1).isSome then
        (.forUsername ((pathParts.get? 1).getD ""), 0)
      else
        let lastPart := pathParts.getLast (by simp)
        if jsStartsWith lastPart "@" ∧ 1 < lastPart.length then
          match search lastPart with
          | some cid => (.chanId cid, 1)
          | none => (.failure, 1)
        else (.forUsername lastPart, 0)
    | _ => (.failure, 0)
  else if jsStartsWith inputValue "@" ∧ 1 < inputValue.length then
    match search inputValue with
    | some cid => (.chanId cid, 1)
    | none => (.failure, 1)
  else (.failure, 0)

/-- The identifier-resolution outcome of the `POST` handler. -/
inductive PostResolution where
  | ident : ResolveResult → PostResolution
  | notFound : PostResolution
deriving DecidableEq, Inhabited

/-- The resolution stage of the `POST` handler: take the direct extraction
result if it carries an id or username; otherwise issue one general
name-search call with the raw input, and report its empty response as 404
channel-not-found.  Also counts the total search calls issued. -/
def resolveViaPost (extract : String → ResolveResult × ℕ)
    (search : String → Option String) (input : String) : PostResolution × ℕ :=
  let r := extract input
  match r.1 with
  | .failure =>
    match search input with
    | some cid => (.ident (.chanId cid), r.2 + 1)
    | none => (.notFound, r.2 + 1)
  | res => (.ident res, r.2)

/-! ## The channel-videos import
(from `src/app/api/getChannelVideos/route.tsx`, `POST`). -/

/-- One item of the detailed `videos.list` response, restricted to the fields
the upsert payload uses (other metadata columns are elided together with
their `VideoRow` counterparts). -/
structure ImportVideoItem where
  id : Option String
  publishedAt : Option ℚ
deriving DecidableEq, Inhabited

/-- The upsert payload built for one imported video (`videosToUpsert`
element), restricted to the represented columns. -/
structure VideoUpsertRecord where
  youtube_video_id : String
  channel_id : String
  published_at : Option ℚ
  next_stat_fetch_at : Option ℚ
  stat_fetch_frequency_hours : Option ℚ
  last_stat_logged_at : Option ℚ
deriving DecidableEq, Inhabited

/-- The record pushed for one accepted video:
`next_stat_fetch_at = new Date(Date.now() + 60*60*1000)` (here `nowA` is that
`Date.now()` read), `stat_fetch_frequency_hours = 1`, and
`last_stat_logged_at = new Date()` (the separate read `nowB`). -/
def buildVideoToSave (supabaseChannelId : String) (nowA nowB : ℚ)
    (vid : String) (publishedAt : Option ℚ) : VideoUpsertRecord :=
  { youtube_video_id := vid
    channel_id := supabaseChannelId
    published_at := publishedAt
    next_stat_fetch_at := some (nowA + 60 * 60 * 1000)
    stat_fetch_frequency_hours := some 1
    last_stat_logged_at := some nowB }

/-- The `forEach` over the detailed response items, guarded by `if (video.id)`
(falsy — missing or empty — ids are skipped).  `k` counts clock reads: each
accepted video performs two (`Date.now()`, then `new Date()`). -/
def importVideos (supabaseChannelId : String) (clock : ℕ → ℚ) :
    List ImportVideoItem → ℕ → List VideoUpsertRecord
  | [], _ => []
  | v :: rest, k =>
    match v.id with
    | some vid =>
      if vid = "" then importVideos supabaseChannelId clock rest k
      else
        buildVideoToSave supabaseChannelId (clock k) (clock (k + 1)) vid
            v.publishedAt ::
          importVideos supabaseChannelId clock rest (k + 2)
    | none => importVideos supabaseChannelId clock rest k

/-- The effect of upserting one import record with
`onConflict: 'youtube_video_id'`: overwrite the payload columns of the
conflicting row (other columns, e.g. the cached counts, keep their values),
or insert a fresh row when no row conflicts. -/
def upsertVideoRecord (freshId : String) (store : List VideoRow)
    (r : VideoUpsertRecord) : List VideoRow :=
  if store.any (fun row => row.youtube_video_id == r.youtube_video_id) then
    store.map (fun row =>
      if row.youtube_video_id = r.youtube_video_id then
        { row with
          published_at := r.published_at
          next_stat_fetch_at := r.next_stat_fetch_at
          stat_fetch_frequency_hours := r.stat_fetch_frequency_hours
          last_stat_logged_at := r.last_stat_logged_at }
      else row)
  else
    store ++ [{ id := freshId
                youtube_video_id := r.youtube_video_id
                published_at := r.published_at
                next_stat_fetch_at := r.next_stat_fetch_at
                stat_fetch_frequency_hours := r.stat_fetch_frequency_hours
                last_stat_logged_at := r.last_stat_logged_at
                view_count := none
                like_count := none
                comment_count := none }]

/-- The projection that recovers the log row accompanying a schedule update
(source: both are pushed from the same accepted item with the same counts and
the same `fetchedAtISO`). -/
def schedUpdateToLog (u : ScheduleUpdate) : VideoStatsLogRow :=
  { video_id := u.id
    fetched_at := u.last_stat_logged_at
    view_count := u.view_count
    like_count := u.like_count
    comment_count := u.comment_count }

/-! ## Concrete fixtures used by witnesses and counterexamples -/

/-- A due video row published at epoch 0. -/
def sampleRow : VideoRow :=
  { id := "row-a", youtube_video_id := "yt-a", published_at := some 0,
    next_stat_fetch_at := some 0, stat_fetch_frequency_hours := none,
    last_stat_logged_at := none, view_count := none, like_count := none,
    comment_count := none }

/-- A second due video row. -/
def sampleRowB : VideoRow :=
  { id := "row-b", youtube_video_id := "yt-b", published_at := some 0,
    next_stat_fetch_at := some 0, stat_fetch_frequency_hours := none,
    last_stat_logged_at := none, view_count := none, like_count := none,
    comment_count := none }

def sampleStore : List VideoRow := [sampleRow]

def sampleStore2 : List VideoRow := [sampleRow, sampleRowB]

/-- A strictly increasing clock: the `k`-th in-loop `new Date()` read. -/
def sampleClock : ℕ → ℚ := fun k => 1000 + k

/-- The fixed raw statistics the sample external source answers with. -/
def sampleStats : VideoStatsRaw :=
  { viewCount := some "5", likeCount := some "2", commentCount := some "1" }

/-- An external source answering every requested id with fixed statistics. -/
def sampleApi : List String → List FetchedItem := fun ids =>
  ids.map (fun i => { id := some i, statistics := some sampleStats })

/-- A store of 51 due rows (to exercise the >50 batching split). -/
def bigStore : List VideoRow :=
  (List.range 51).map (fun n =>
    { id := toString n, youtube_video_id := toString n, published_at := some 0,
      next_stat_fetch_at := some 0, stat_fetch_frequency_hours := none,
      last_stat_logged_at := none, view_count := none, like_count := none,
      comment_count := none })

/-! ## Helper lemmas -/

theorem mkLogRow_eq_proj (v : VideoRow) (stats : VideoStatsRaw)
    (currentTime fetchedAt : ℚ) :
    mkLogRow v stats fetchedAt =
      schedUpdateToLog (mkScheduleUpdate v stats currentTime fetchedAt) := rfl

theorem processItems_fst_eq_map (vs : List VideoRow) (currentTime : ℚ)
    (clock : ℕ → ℚ) (items : List FetchedItem) (k : ℕ) :
    (processItems vs currentTime clock items k).1 =
      (processItems vs currentTime clock items k).2.map schedUpdateToLog := by
  induction items generalizing k with
  | nil => simp [processItems]
  | cons item rest ih =>
    cases hpi : processItem vs currentTime (clock k) item with
    | none => simpa [processItems, hpi] using ih k
    | some lu =>
      obtain ⟨log, upd⟩ := lu
      have hlog : log = schedUpdateToLog upd := by
        unfold processItem at hpi
        split at hpi
        · split at hpi
          · exact absurd hpi (by simp)
          · rw [mkLogRow_eq_proj] at hpi
            obtain ⟨h1, h2⟩ := Prod.mk.injEq .. ▸ (Option.some.injEq .. ▸ hpi)
            rw [← h1, ← h2]
        · exact absurd hpi (by simp)
      simp only [processItems, hpi, List.map_cons]
      rw [hlog, ih]

theorem processItem_some (vs : List VideoRow) (currentTime fetchedAt : ℚ)
    (item : FetchedItem) (lu : VideoStatsLogRow × ScheduleUpdate)
    (h : processItem vs currentTime fetchedAt item = some lu) :
    ∃ stats w, item.statistics = some stats ∧
      findCorresponding vs item.id = some w ∧
      w ∈ vs ∧ item.id = some w.youtube_video_id ∧
      lu = (mkLogRow w stats fetchedAt,
            mkScheduleUpdate w stats currentTime fetchedAt) := by
  unfold processItem at h
  split at h
  case _ vid stats w hid hstats hfind =>
    split at h
    · exact absurd h (by simp)
    · refine ⟨stats, w, hstats, hfind, List.mem_of_find?_eq_some hfind, ?_, ?_⟩
      · have := List.find?_some hfind
        simpa [hid] using this.symm
      · simpa using h.symm
  case _ => exact absurd h (by simp)

theorem nextFetchFrequencyHours_cases (h : ℚ) :
    nextFetchFrequencyHours h = 1 ∨ nextFetchFrequencyHours h = 3 ∨
      nextFetchFrequencyHours h = 24 := by
  unfold nextFetchFrequencyHours
  split
  · exact Or.inl rfl
  · split
    · exact Or.inr (Or.inl rfl)
    · exact Or.inr (Or.inr rfl)

theorem nextFetchFrequencyHours_pos (h : ℚ) :
    0 < nextFetchFrequencyHours h := by
  rcases nextFetchFrequencyHours_cases h with h1 | h1 | h1 <;>
    rw [h1] <;> norm_num

theorem mkScheduleUpdate_next_gt (v : VideoRow) (stats : VideoStatsRaw)
    (currentTime fetchedAt : ℚ) :
    currentTime < (mkScheduleUpdate v stats currentTime fetchedAt).next_stat_fetch_at := by
  show currentTime < currentTime + _ * (60 * 60 * 1000)
  have hpos := nextFetchFrequencyHours_pos
    (hoursSincePublished currentTime (v.published_at.getD 0))
  nlinarith

theorem processItems_updates_mem (vs : List VideoRow) (currentTime : ℚ)
    (clock : ℕ → ℚ) (items : List FetchedItem) (k : ℕ) (u : ScheduleUpdate)
    (hu : u ∈ (processItems vs currentTime clock items k).2) :
    ∃ item ∈ items, ∃ stats w j, item.statistics = some stats ∧
      findCorresponding vs item.id = some w ∧ w ∈ vs ∧
      item.id = some w.youtube_video_id ∧
      u = mkScheduleUpdate w stats currentTime (clock j) := by
  induction items generalizing k with
  | nil => simp [processItems] at hu
  | cons item rest ih =>
    cases hpi : processItem vs currentTime (clock k) item with
    | none =>
      rw [processItems, hpi] at hu
      obtain ⟨it, hit, rest'⟩ := ih k hu
      exact ⟨it, List.mem_cons_of_mem _ hit, rest'⟩
    | some lu =>
      rw [processItems, hpi] at hu
      rcases List.mem_cons.mp hu with hu0 | hu1
      · obtain ⟨stats, w, hstats, hfind, hmem, hid, hlu⟩ :=
          processItem_some vs currentTime (clock k) item lu hpi
        refine ⟨item, List.mem_cons_self .., stats, w, k, hstats, hfind,
          hmem, hid, ?_⟩
        rw [hu0, hlu]
      · obtain ⟨it, hit, rest'⟩ := ih (k + 1) hu1
        exact ⟨it, List.mem_cons_of_mem _ hit, rest'⟩

theorem foldl_applyUpdate_of_ne (us : List ScheduleUpdate) (v : VideoRow)
    (h : ∀ u ∈ us, u.id ≠ v.id) : us.foldl applyUpdate v = v := by
  induction us with
  | nil => rfl
  | cons u rest ih =>
    have h0 : applyUpdate v u = v := by
      unfold applyUpdate
      rw [if_neg]
      exact fun he => h u (List.mem_cons_self ..) (he ▸ rfl)
    rw [List.foldl_cons, h0]
    exact ih (fun u' hu' => h u' (List.mem_cons_of_mem _ hu'))

theorem foldl_applyUpdate_disjunction (us : List ScheduleUpdate)
    (v : VideoRow) :
    us.foldl applyUpdate v = v ∨
      ∃ u ∈ us, (us.foldl applyUpdate v).next_stat_fetch_at =
        some u.next_stat_fetch_at := by
  induction us generalizing v with
  | nil => exact Or.inl rfl
  | cons u rest ih =>
    rw [List.foldl_cons]
    by_cases hid : v.id = u.id
    · rcases ih (applyUpdate v u) with h1 | ⟨u', hu', h1⟩
      · refine Or.inr ⟨u, List.mem_cons_self .., ?_⟩
        rw [h1]
        unfold applyUpdate
        rw [if_pos hid]
      · exact Or.inr ⟨u', List.mem_cons_of_mem _ hu', h1⟩
    · have h0 : applyUpdate v u = v := by
        unfold applyUpdate; rw [if_neg hid]
      rw [h0]
      rcases ih v with h1 | ⟨u', hu', h1⟩
      · exact Or.inl h1
      · exact Or.inr ⟨u', List.mem_cons_of_mem _ hu', h1⟩

theorem applyUpdates_eq_map (store : List VideoRow)
    (us : List ScheduleUpdate) :
    applyUpdates store us = store.map (fun r => us.foldl applyUpdate r) := by
  induction us generalizing store with
  | nil => simp [applyUpdates]
  | cons u rest ih =>
    unfold applyUpdates at ih ⊢
    rw [List.foldl_cons, ih, List.map_map]
    rfl

theorem chunksOf50Aux_flatten :
    ∀ (fuel : ℕ) (l : List String), l.length ≤ fuel →
      (chunksOf50Aux fuel l).flatten = l := by
  intro fuel
  induction fuel with
  | zero =>
    intro l hl
    rw [List.length_eq_zero.mp (Nat.le_zero.mp hl)]
    rfl
  | succ fuel ih =>
    intro l hl
    cases l with
    | nil => rfl
    | cons a rest =>
      rw [chunksOf50Aux, List.flatten_cons, ih _ (by simp at hl ⊢; omega),
        List.take_append_drop]

theorem chunksOf50_flatten (l : List String) :
    (chunksOf50 l).flatten = l :=
  chunksOf50Aux_flatten l.length l le_rfl

theorem chunksOf50Aux_length :
    ∀ (fuel : ℕ) (l : List String), l.length ≤ fuel →
      (chunksOf50Aux fuel l).length = (l.length + 49) / 50 := by
  intro fuel
  induction fuel with
  | zero =>
    intro l hl
    rw [List.length_eq_zero.mp (Nat.le_zero.mp hl)]
    rfl
  | succ fuel ih =>
    intro l hl
    cases l with
    | nil => rfl
    | cons a rest =>
      rw [chunksOf50Aux, List.length_cons, ih _ (by simp at hl ⊢; omega),
        List.length_drop]
      have hlen : (a :: rest).length = rest.length + 1 := rfl
      rcases Nat.le_total (a :: rest).length 50 with hle | hge
      · have h1 : (a :: rest).length - 50 = 0 := by omega
        have h2 : ((a :: rest).length + 49) / 50 = 1 :=
          Nat.div_eq_of_lt_le (by omega) (by omega)
        rw [h1, h2]
      · have h1 : (a :: rest).length - 50 + 49 + 50 =
            (a :: rest).length + 49 := by omega
        rw [← h1, Nat.add_div_right _ (by norm_num)]

theorem chunksOf50_length (l : List String) :
    (chunksOf50 l).length = (l.length + 49) / 50 :=
  chunksOf50Aux_length l.length l le_rfl

theorem chunksOf50Aux_sizes :
    ∀ (fuel : ℕ) (l : List String), ∀ c ∈ chunksOf50Aux fuel l,
      c.length ≤ 50 := by
  intro fuel
  induction fuel with
  | zero =>
    intro l c hc
    simp [chunksOf50Aux] at hc
  | succ fuel ih =>
    intro l c hc
    cases l with
    | nil => simp [chunksOf50Aux] at hc
    | cons a rest =>
      rw [chunksOf50Aux] at hc
      rcases List.mem_cons.mp hc with h | h
      · rw [h]
        simp
      · exact ih _ c h

theorem chunksOf50_sizes (l : List String) :
    ∀ c ∈ chunksOf50 l, c.length ≤ 50 :=
  chunksOf50Aux_sizes l.length l

theorem execOps_videos_congr (fails fails' : ℕ → Bool)
    (ops : List VideoStoreOp) :
    ∀ (st st' : DbState) (k : ℕ), st.videos = st'.videos →
      (∀ i, i < ops.length →
        (ops.getD i default).isUpdate = true → fails (k + i) = fails' (k + i)) →
      (execOps fails st ops k).videos = (execOps fails' st' ops k).videos := by
  induction ops with
  | nil =>
    intro st st' k hv _
    exact hv
  | cons op rest ih =>
    intro st st' k hv hagree
    have hrest : ∀ i, i < rest.length →
        (rest.getD i default).isUpdate = true →
        fails (k + 1 + i) = fails' (k + 1 + i) := by
      intro i hi hup
      have h := hagree (i + 1) (by simp [Nat.succ_lt_succ hi])
        (by simpa using hup)
      simpa [Nat.add_assoc, Nat.add_comm 1 i] using h
    rw [execOps, execOps]
    cases op with
    | insertLogs rows =>
      apply ih _ _ _ _ hrest
      by_cases hf : fails k <;> by_cases hf' : fails' k <;>
        simp [hf, hf', applyOp, hv]
    | updateVideo u =>
      have h0 : fails k = fails' k := by
        simpa using hagree 0 (by simp) (by simp [VideoStoreOp.isUpdate])
      apply ih _ _ _ _ hrest
      by_cases hf : fails k
      · rw [if_pos hf, if_pos (h0 ▸ hf)]
        exact hv
      · rw [if_neg hf, if_neg (h0 ▸ hf)]
        simp [applyOp, hv]

theorem execOps_logs_congr (fails fails' : ℕ → Bool)
    (ops : List VideoStoreOp) :
    ∀ (st st' : DbState) (k : ℕ), st.videoLogs = st'.videoLogs →
      (∀ i, i < ops.length →
        (ops.getD i default).isInsert = true → fails (k + i) = fails' (k + i)) →
      (execOps fails st ops k).videoLogs =
        (execOps fails' st' ops k).videoLogs := by
  induction ops with
  | nil =>
    intro st st' k hv _
    exact hv
  | cons op rest ih =>
    intro st st' k hv hagree
    have hrest : ∀ i, i < rest.length →
        (rest.getD i default).isInsert = true →
        fails (k + 1 + i) = fails' (k + 1 + i) := by
      intro i hi hup
      have h := hagree (i + 1) (by simp [Nat.succ_lt_succ hi])
        (by simpa using hup)
      simpa [Nat.add_assoc, Nat.add_comm 1 i] using h
    rw [execOps, execOps]
    cases op with
    | updateVideo u =>
      apply ih _ _ _ _ hrest
      by_cases hf : fails k <;> by_cases hf' : fails' k <;>
        simp [hf, hf', applyOp, hv]
    | insertLogs rows =>
      have h0 : fails k = fails' k := by
        simpa using hagree 0 (by simp) (by simp [VideoStoreOp.isInsert])
      apply ih _ _ _ _ hrest
      by_cases hf : fails k
      · rw [if_pos hf, if_pos (h0 ▸ hf)]
        exact hv
      · rw [if_neg hf, if_neg (h0 ▸ hf)]
        simp [applyOp, hv]

theorem processItems_updates_ids_nodup (vs : List VideoRow) (currentTime : ℚ)
    (clock : ℕ → ℚ) (hvs : (vs.map (·.id)).Nodup) :
    ∀ (items : List FetchedItem) (k : ℕ),
      (items.filterMap (·.id)).Nodup →
      (((processItems vs currentTime clock items k).2).map (·.id)).Nodup := by
  intro items
  induction items with
  | nil => intro k _; simp [processItems]
  | cons item rest ih =>
    intro k hitems
    have hrest : (rest.filterMap (·.id)).Nodup := by
      cases hid : item.id with
      | none => simpa [List.filterMap_cons, hid] using hitems
      | some vid =>
        have : (vid :: rest.filterMap (·.id)).Nodup := by
          simpa [List.filterMap_cons, hid] using hitems
        exact this.of_cons
    cases hpi : processItem vs currentTime (clock k) item with
    | none =>
      rw [processItems, hpi]
      exact ih k hrest
    | some lu =>
      rw [processItems, hpi]
      simp only [List.map_cons, List.nodup_cons]
      refine ⟨?_, ih (k + 1) hrest⟩
      intro hmem
      obtain ⟨u', hu', hid'⟩ := List.mem_map.mp hmem
      obtain ⟨stats, w, hstats, hfind, hw, hid, hlu⟩ :=
        processItem_some vs currentTime (clock k) item lu hpi
      obtain ⟨item', hitem', stats', w', j, hstats', hfind', hw', hid2, hu'eq⟩ :=
        processItems_updates_mem vs currentTime clock rest (k + 1) u' hu'
      have hww : w' = w := by
        apply List.inj_on_of_nodup_map hvs hw' hw
        have : u'.id = w'.id := by rw [hu'eq]; rfl
        have hlu2 : lu.2.id = w.id := by rw [hlu]; rfl
        rw [← this, ← hlu2, hid']
      have hvidmem : w.youtube_video_id ∈ rest.filterMap (·.id) :=
        List.mem_filterMap.mpr ⟨item', hitem', by rw [hid2, hww]⟩
      have hvidhead : (w.youtube_video_id :: rest.filterMap (·.id)).Nodup := by
        simpa [List.filterMap_cons, hid] using hitems
      exact (List.nodup_cons.mp hvidhead).1 hvidmem

theorem scheduledVideoStatsFetch_selected (store : List VideoRow) (ct : ℚ)
    (clock : ℕ → ℚ) (api : List String → List FetchedItem) :
    (scheduledVideoStatsFetch store ct clock api).selected =
      store.filter (isDue ct) := rfl

theorem scheduledVideoStatsFetch_apiCalls (store : List VideoRow) (ct : ℚ)
    (clock : ℕ → ℚ) (api : List String → List FetchedItem) :
    (scheduledVideoStatsFetch store ct clock api).apiCalls =
      chunksOf50 ((store.filter (isDue ct)).map (·.youtube_video_id)) := rfl

theorem scheduledVideoStatsFetch_logs (store : List VideoRow) (ct : ℚ)
    (clock : ℕ → ℚ) (api : List String → List FetchedItem) :
    (scheduledVideoStatsFetch store ct clock api).logs =
      (processItems (store.filter (isDue ct)) ct clock
        (passItems store ct api) 0).1 := rfl

theorem scheduledVideoStatsFetch_updates (store : List VideoRow) (ct : ℚ)
    (clock : ℕ → ℚ) (api : List String → List FetchedItem) :
    (scheduledVideoStatsFetch store ct clock api).updates =
      (processItems (store.filter (isDue ct)) ct clock
        (passItems store ct api) 0).2 := rfl

/-! ## Claims -/

/-- C1: For every video processed in a scheduler pass, the next refresh
interval computed from `hoursSincePublished = (now - published_at)/1h` is
exactly 1 hour when `hoursSincePublished <= 24`, exactly 3 hours when
`24 < hoursSincePublished <= 72`, and exactly 24 hours otherwise — both
boundaries (exactly 24h, exactly 72h) resolving to the lower interval — and
the video's `next_stat_fetch_at` is set to `now` plus that interval. -/
theorem c1_interval_policy_and_next_fetch :
    (∀ currentTime published : ℚ,
      (hoursSincePublished currentTime published ≤ 24 →
        nextFetchFrequencyHours (hoursSincePublished currentTime published) = 1) ∧
      (24 < hoursSincePublished currentTime published →
        hoursSincePublished currentTime published ≤ 72 →
        nextFetchFrequencyHours (hoursSincePublished currentTime published) = 3) ∧
      (72 < hoursSincePublished currentTime published →
        nextFetchFrequencyHours (hoursSincePublished currentTime published) = 24)) ∧
    ∀ (store : List VideoRow) (currentTime : ℚ) (clock : ℕ → ℚ)
      (api : List String → List FetchedItem) (u : ScheduleUpdate),
      u ∈ (scheduledVideoStatsFetch store currentTime clock api).updates →
      ∃ w ∈ (scheduledVideoStatsFetch store currentTime clock api).selected,
        u.id = w.id ∧
        u.stat_fetch_frequency_hours =
          nextFetchFrequencyHours
            (hoursSincePublished currentTime (w.published_at.getD 0)) ∧
        u.next_stat_fetch_at =
          currentTime + u.stat_fetch_frequency_hours * (60 * 60 * 1000) := by
  constructor
  · intro currentTime published
    refine ⟨fun h1 => ?_, fun h1 h2 => ?_, fun h1 => ?_⟩
    · rw [nextFetchFrequencyHours, if_pos h1]
    · rw [nextFetchFrequencyHours, if_neg (by linarith), if_pos h2]
    · rw [nextFetchFrequencyHours, if_neg (by linarith), if_neg (by linarith)]
  · intro store currentTime clock api u hu
    rw [scheduledVideoStatsFetch_updates] at hu
    obtain ⟨item, hitem, stats, w, j, hstats, hfind, hw, hid, hueq⟩ :=
      processItems_updates_mem _ currentTime clock _ 0 u hu
    refine ⟨w, ?_, ?_, ?_, ?_⟩
    · rw [scheduledVideoStatsFetch_selected]
      exact hw
    · rw [hueq]
      rfl
    · rw [hueq]
      rfl
    · rw [hueq]
      rfl

/-- The single update produced by the sample pass, named for the witnesses. -/
theorem sampleUpdate_mem :
    mkScheduleUpdate sampleRow sampleStats 0 (sampleClock 0) ∈
      (scheduledVideoStatsFetch sampleStore 0 sampleClock sampleApi).updates := by
  have h : (scheduledVideoStatsFetch sampleStore 0 sampleClock sampleApi).updates =
      [mkScheduleUpdate sampleRow sampleStats 0 (sampleClock 0)] := by
    rw [scheduledVideoStatsFetch_updates]
    norm_num [passItems, sampleStore, sampleApi, sampleRow, isDue, chunksOf50,
      chunksOf50Aux, processItems, processItem, findCorresponding]
    rw [if_neg (by decide : ¬("yt-a" = ""))]
  rw [h]
  exact List.mem_singleton_self _

/-- Witness for C1: the spec's own examples (ages 10h, 50h, 200h and the two
boundaries 24h, 72h, in milliseconds since a publish time of 0), plus one
concrete pass whose single update satisfies the stated relation. -/
theorem c1_witness :
    nextFetchFrequencyHours (hoursSincePublished 36000000 0) = 1 ∧
    nextFetchFrequencyHours (hoursSincePublished 180000000 0) = 3 ∧
    nextFetchFrequencyHours (hoursSincePublished 720000000 0) = 24 ∧
    nextFetchFrequencyHours (hoursSincePublished 86400000 0) = 1 ∧
    nextFetchFrequencyHours (hoursSincePublished 259200000 0) = 3 ∧
    ∃ w ∈ (scheduledVideoStatsFetch sampleStore 0 sampleClock sampleApi).selected,
      (mkScheduleUpdate sampleRow sampleStats 0 (sampleClock 0)).id = w.id ∧
      (mkScheduleUpdate sampleRow sampleStats 0
          (sampleClock 0)).stat_fetch_frequency_hours =
        nextFetchFrequencyHours
          (hoursSincePublished 0 (w.published_at.getD 0)) ∧
      (mkScheduleUpdate sampleRow sampleStats 0
          (sampleClock 0)).next_stat_fetch_at =
        0 + (mkScheduleUpdate sampleRow sampleStats 0
          (sampleClock 0)).stat_fetch_frequency_hours * (60 * 60 * 1000) :=
  ⟨(c1_interval_policy_and_next_fetch.1 36000000 0).1
      (by norm_num [hoursSincePublished]),
   (c1_interval_policy_and_next_fetch.1 180000000 0).2.1
      (by norm_num [hoursSincePublished]) (by norm_num [hoursSincePublished]),
   (c1_interval_policy_and_next_fetch.1 720000000 0).2.2
      (by norm_num [hoursSincePublished]),
   (c1_interval_policy_and_next_fetch.1 86400000 0).1
      (by norm_num [hoursSincePublished]),
   (c1_interval_policy_and_next_fetch.1 259200000 0).2.1
      (by norm_num [hoursSincePublished]) (by norm_num [hoursSincePublished]),
   c1_interval_policy_and_next_fetch.2 sampleStore 0 sampleClock sampleApi
      (mkScheduleUpdate sampleRow sampleStats 0 (sampleClock 0))
      sampleUpdate_mem⟩

/-- C8: When a scheduler pass selects `N` due videos with `N > 50`, the
external fetch is issued as exactly `⌈N/50⌉` batch calls (characterized by
`50·(calls−1) < N ≤ 50·calls`, and equal to `(N+49)/50`), each carrying at
most 50 ids, together covering all `N` selected ids in order. -/
theorem c8_batch_split (store : List VideoRow) (currentTime : ℚ)
    (clock : ℕ → ℚ) (api : List String → List FetchedItem)
    (hN : 50 < (scheduledVideoStatsFetch store currentTime clock api).selected.length) :
    (scheduledVideoStatsFetch store currentTime clock api).apiCalls.length =
      ((scheduledVideoStatsFetch store currentTime clock api).selected.length + 49) / 50 ∧
    50 * ((scheduledVideoStatsFetch store currentTime clock api).apiCalls.length - 1) <
      (scheduledVideoStatsFetch store currentTime clock api).selected.length ∧
    (scheduledVideoStatsFetch store currentTime clock api).selected.length ≤
      50 * (scheduledVideoStatsFetch store currentTime clock api).apiCalls.length ∧
    (∀ b ∈ (scheduledVideoStatsFetch store currentTime clock api).apiCalls,
      b.length ≤ 50) ∧
    (scheduledVideoStatsFetch store currentTime clock api).apiCalls.flatten =
      (scheduledVideoStatsFetch store currentTime clock api).selected.map
        (·.youtube_video_id) := by
  rw [scheduledVideoStatsFetch_apiCalls, scheduledVideoStatsFetch_selected] at *
  set sel := store.filter (isDue currentTime) with hsel
  have hlen : (chunksOf50 (sel.map (·.youtube_video_id))).length =
      (sel.length + 49) / 50 := by
    rw [chunksOf50_length, List.length_map]
  have hceil : 50 * ((sel.length + 49) / 50 - 1) < sel.length ∧
      sel.length ≤ 50 * ((sel.length + 49) / 50) := by
    have hdm := Nat.div_add_mod (sel.length + 49) 50
    have hm := Nat.mod_lt (sel.length + 49) (show 0 < 50 by norm_num)
    omega
  refine ⟨hlen, ?_, ?_, chunksOf50_sizes _, ?_⟩
  · rw [hlen]
    exact hceil.1
  · rw [hlen]
    exact hceil.2
  · rw [chunksOf50_flatten]

/-- Witness for C8: a pass over 51 due rows issues 2 batch calls. -/
theorem c8_witness :
    50 < (scheduledVideoStatsFetch bigStore 0 sampleClock sampleApi).selected.length ∧
    ((scheduledVideoStatsFetch bigStore 0 sampleClock sampleApi).apiCalls.length =
      ((scheduledVideoStatsFetch bigStore 0 sampleClock sampleApi).selected.length + 49) / 50 ∧
    50 * ((scheduledVideoStatsFetch bigStore 0 sampleClock sampleApi).apiCalls.length - 1) <
      (scheduledVideoStatsFetch bigStore 0 sampleClock sampleApi).selected.length ∧
    (scheduledVideoStatsFetch bigStore 0 sampleClock sampleApi).selected.length ≤
      50 * (scheduledVideoStatsFetch bigStore 0 sampleClock sampleApi).apiCalls.length ∧
    (∀ b ∈ (scheduledVideoStatsFetch bigStore 0 sampleClock sampleApi).apiCalls,
      b.length ≤ 50) ∧
    (scheduledVideoStatsFetch bigStore 0 sampleClock sampleApi).apiCalls.flatten =
      (scheduledVideoStatsFetch bigStore 0 sampleClock sampleApi).selected.map
        (·.youtube_video_id)) :=
  ⟨by decide, c8_batch_split bigStore 0 sampleClock sampleApi (by decide)⟩

/-- C4: Each video successfully refreshed in a scheduler pass gets exactly one
VideoStatsLog row appended, and that row's view/like/comment counts equal the
counts written to the video's cached "latest" columns in the same pass.  The
log list is exactly the image of the update list under `schedUpdateToLog`
(same counts, same row, same timestamp), and — when the store's internal ids
and the response items' ids are duplicate-free, as a relational primary key
and the batch lookup respectively guarantee — each refreshed video's id
occurs exactly once among the updates and exactly once among the log rows. -/
theorem c4_one_log_row_matching_cache (store : List VideoRow)
    (currentTime : ℚ) (clock : ℕ → ℚ) (api : List String → List FetchedItem) :
    (scheduledVideoStatsFetch store currentTime clock api).logs =
      (scheduledVideoStatsFetch store currentTime clock api).updates.map
        schedUpdateToLog ∧
    ((store.map (·.id)).Nodup →
      ((passItems store currentTime api).filterMap (·.id)).Nodup →
      ∀ u ∈ (scheduledVideoStatsFetch store currentTime clock api).updates,
        (scheduledVideoStatsFetch store currentTime clock api).updates.countP
          (fun u' => u'.id == u.id) = 1 ∧
        (scheduledVideoStatsFetch store currentTime clock api).logs.countP
          (fun l => l.video_id == u.id) = 1) := by
  constructor
  · rw [scheduledVideoStatsFetch_logs, scheduledVideoStatsFetch_updates]
    exact processItems_fst_eq_map _ _ _ _ _
  · intro hstore hitems u hu
    have hsel : ((store.filter (isDue currentTime)).map (·.id)).Nodup :=
      hstore.sublist (store.filter_sublist.map _)
    have hids : (((scheduledVideoStatsFetch store currentTime clock
        api).updates).map (·.id)).Nodup := by
      rw [scheduledVideoStatsFetch_updates]
      exact processItems_updates_ids_nodup _ currentTime clock hsel _ 0 hitems
    have hmemid : u.id ∈ ((scheduledVideoStatsFetch store currentTime clock
        api).updates).map (·.id) := List.mem_map_of_mem _ hu
    have hcount : (((scheduledVideoStatsFetch store currentTime clock
        api).updates).map (·.id)).count u.id = 1 :=
      List.count_eq_one_of_mem hids hmemid
    have h1 : (scheduledVideoStatsFetch store currentTime clock
        api).updates.countP (fun u' => u'.id == u.id) = 1 := by
      rw [List.count, List.countP_map] at hcount
      exact hcount
    refine ⟨h1, ?_⟩
    rw [scheduledVideoStatsFetch_logs, processItems_fst_eq_map,
      ← scheduledVideoStatsFetch_updates, List.countP_map]
    exact h1

/-- Witness for C4: in the sample pass the single refreshed video has exactly
one log row and one update, with matching counts. -/
theorem c4_witness :
    (sampleStore.map (·.id)).Nodup ∧
    ((passItems sampleStore 0 sampleApi).filterMap (·.id)).Nodup ∧
    ((scheduledVideoStatsFetch sampleStore 0 sampleClock sampleApi).updates.countP
      (fun u' => u'.id ==
        (mkScheduleUpdate sampleRow sampleStats 0 (sampleClock 0)).id) = 1 ∧
    (scheduledVideoStatsFetch sampleStore 0 sampleClock sampleApi).logs.countP
      (fun l => l.video_id ==
        (mkScheduleUpdate sampleRow sampleStats 0 (sampleClock 0)).id) = 1) :=
  ⟨by decide, by decide,
   (c4_one_log_row_matching_cache sampleStore 0 sampleClock sampleApi).2
     (by decide) (by decide) _ sampleUpdate_mem⟩

theorem sampleUpdates2_eq :
    (scheduledVideoStatsFetch sampleStore2 0 sampleClock sampleApi).updates =
      [mkScheduleUpdate sampleRow sampleStats 0 (sampleClock 0),
       mkScheduleUpdate sampleRowB sampleStats 0 (sampleClock 1)] := by
  rw [scheduledVideoStatsFetch_updates]
  norm_num [passItems, sampleStore2, sampleApi, sampleRow, sampleRowB, isDue,
    chunksOf50, chunksOf50Aux, processItems, processItem, findCorresponding,
    List.find?]
  rw [if_neg (by decide : ¬("yt-a" = ""))]
  rw [show (("yt-b" : String) == "yt-a") = false from by decide]
  norm_num
  rw [if_neg (by decide : ¬("yt-b" = ""))]

/-- C3 is false on the code: in a pass over two due videos with a strictly
increasing clock, the two rows' `last_stat_logged_at` timestamps are two
distinct `new Date()` reads (1000 and 1001), not one value captured at the
start of the batch (the pass's `currentTime` is 0 here): there is no single
timestamp shared by every row of the batch. -/
theorem c3_counterexample :
    ((scheduledVideoStatsFetch sampleStore2 0 sampleClock
        sampleApi).updates.map (·.last_stat_logged_at)) = [1000, 1001] ∧
    ¬ ∃ t : ℚ, ∀ u ∈ (scheduledVideoStatsFetch sampleStore2 0 sampleClock
        sampleApi).updates, u.last_stat_logged_at = t := by
  have hmap : ((scheduledVideoStatsFetch sampleStore2 0 sampleClock
      sampleApi).updates.map (·.last_stat_logged_at)) = [1000, 1001] := by
    rw [sampleUpdates2_eq]
    norm_num [mkScheduleUpdate, sampleClock]
  refine ⟨hmap, ?_⟩
  rintro ⟨t, ht⟩
  have h1 : (mkScheduleUpdate sampleRow sampleStats 0
      (sampleClock 0)).last_stat_logged_at = t := by
    apply ht
    rw [sampleUpdates2_eq]
    exact List.mem_cons_self ..
  have h2 : (mkScheduleUpdate sampleRowB sampleStats 0
      (sampleClock 1)).last_stat_logged_at = t := by
    apply ht
    rw [sampleUpdates2_eq]
    exact List.mem_cons_of_mem _ (List.mem_cons_self ..)
  rw [show (mkScheduleUpdate sampleRow sampleStats 0
      (sampleClock 0)).last_stat_logged_at = sampleClock 0 from rfl] at h1
  rw [show (mkScheduleUpdate sampleRowB sampleStats 0
      (sampleClock 1)).last_stat_logged_at = sampleClock 1 from rfl] at h2
  rw [← h1] at h2
  norm_num [sampleClock] at h2

/-- C3 (amended): within each processed row, the log row's `fetched_at` and
the schedule update's `last_stat_logged_at` are one shared per-row clock read
(the log list is the image of the update list under `schedUpdateToLog`, and
each update's `last_stat_logged_at` is some `new Date()` read), while
`next_stat_fetch_at` is computed from the pass-start `currentTime`; the
timestamp written as `fetched_at`/`last_stat_logged_at` is re-read from the
clock for each row, not captured once per batch. -/
theorem c3_amended_per_row_timestamp (store : List VideoRow) (currentTime : ℚ)
    (clock : ℕ → ℚ) (api : List String → List FetchedItem) :
    (scheduledVideoStatsFetch store currentTime clock api).logs =
      (scheduledVideoStatsFetch store currentTime clock api).updates.map
        schedUpdateToLog ∧
    ∀ u ∈ (scheduledVideoStatsFetch store currentTime clock api).updates,
      (∃ j, u.last_stat_logged_at = clock j) ∧
      u.next_stat_fetch_at =
        currentTime + u.stat_fetch_frequency_hours * (60 * 60 * 1000) := by
  constructor
  · rw [scheduledVideoStatsFetch_logs, scheduledVideoStatsFetch_updates]
    exact processItems_fst_eq_map _ _ _ _ _
  · intro u hu
    rw [scheduledVideoStatsFetch_updates] at hu
    obtain ⟨item, hitem, stats, w, j, hstats, hfind, hw, hid, hueq⟩ :=
      processItems_updates_mem _ currentTime clock _ 0 u hu
    refine ⟨⟨j, ?_⟩, ?_⟩
    · rw [hueq]
      rfl
    · rw [hueq]
      rfl

/-- Witness for the amended C3, at the two-row sample pass. -/
theorem c3_amended_witness :
    (∃ j, (mkScheduleUpdate sampleRowB sampleStats 0
        (sampleClock 1)).last_stat_logged_at = sampleClock j) ∧
    (mkScheduleUpdate sampleRowB sampleStats 0
        (sampleClock 1)).next_stat_fetch_at =
      0 + (mkScheduleUpdate sampleRowB sampleStats 0
        (sampleClock 1)).stat_fetch_frequency_hours * (60 * 60 * 1000) :=
  (c3_amended_per_row_timestamp sampleStore2 0 sampleClock sampleApi).2
    (mkScheduleUpdate sampleRowB sampleStats 0 (sampleClock 1))
    (by rw [sampleUpdates2_eq]
        exact List.mem_cons_of_mem _ (List.mem_cons_self ..))

/-- C2: After a completed scheduler pass, every video that was selected as
due either has its `next_stat_fetch_at` strictly increased to a time strictly
in the future of the pass's `now`, or is left entirely untouched; a due video
whose id is absent from the external fetch response gets no log row and no
field change; `next_stat_fetch_at` is never decreased, never left null, never
set to a past time.  `us` ranges over sublists of the accumulated updates,
covering both the fully applied pass and passes where some per-row updates
failed (a failed update row is simply not applied); the last conjunct
identifies the whole-table update sequence with the per-row fold. -/
theorem c2_pass_leaves_future_or_untouched (store : List VideoRow)
    (currentTime : ℚ) (clock : ℕ → ℚ) (api : List String → List FetchedItem)
    (hnodup : (store.map (·.id)).Nodup)
    (v : VideoRow) (hv : v ∈ store) (t0 : ℚ)
    (hdue : v.next_stat_fetch_at = some t0) (ht0 : t0 ≤ currentTime)
    (us : List ScheduleUpdate)
    (hsub : us.Sublist
      (scheduledVideoStatsFetch store currentTime clock api).updates) :
    (us.foldl applyUpdate v = v ∨
      ∃ t, (us.foldl applyUpdate v).next_stat_fetch_at = some t ∧
        currentTime < t ∧ t0 < t) ∧
    ((∀ item ∈ passItems store currentTime api,
        item.id ≠ some v.youtube_video_id) →
      us.foldl applyUpdate v = v ∧
      ∀ log ∈ (scheduledVideoStatsFetch store currentTime clock api).logs,
        log.video_id ≠ v.id) ∧
    applyUpdates store
        (scheduledVideoStatsFetch store currentTime clock api).updates =
      store.map (fun r =>
        ((scheduledVideoStatsFetch store currentTime clock api).updates).foldl
          applyUpdate r) := by
  have hmemup : ∀ u ∈ (scheduledVideoStatsFetch store currentTime clock
      api).updates,
      currentTime < u.next_stat_fetch_at ∧
      ∃ item ∈ passItems store currentTime api, ∃ w, w ∈ store ∧
        item.id = some w.youtube_video_id ∧ u.id = w.id := by
    intro u hu
    rw [scheduledVideoStatsFetch_updates] at hu
    obtain ⟨item, hitem, stats, w, j, hstats, hfind, hw, hid, hueq⟩ :=
      processItems_updates_mem _ currentTime clock _ 0 u hu
    have hwstore : w ∈ store := (List.mem_filter.mp hw).1
    refine ⟨?_, item, hitem, w, hwstore, hid, by rw [hueq]; rfl⟩
    rw [hueq]
    exact mkScheduleUpdate_next_gt w stats currentTime (clock j)
  refine ⟨?_, ?_, applyUpdates_eq_map store _⟩
  · rcases foldl_applyUpdate_disjunction us v with h | ⟨u, hu, heq⟩
    · exact Or.inl h
    · have h1 := hmemup u (hsub.subset hu)
      exact Or.inr ⟨u.next_stat_fetch_at, heq, h1.1, lt_of_le_of_lt ht0 h1.1⟩
  · intro habs
    have hne : ∀ u ∈ (scheduledVideoStatsFetch store currentTime clock
        api).updates, u.id ≠ v.id := by
      intro u hu hid'
      obtain ⟨-, item, hitem, w, hwstore, hid, huid⟩ := hmemup u hu
      have hwv : w = v :=
        List.inj_on_of_nodup_map hnodup hwstore hv
          (by rw [← huid]; exact hid')
      exact habs item hitem (by rw [hid, hwv])
    refine ⟨foldl_applyUpdate_of_ne us v
      (fun u hu => hne u (hsub.subset hu)), ?_⟩
    intro log hlog
    rw [scheduledVideoStatsFetch_logs, processItems_fst_eq_map] at hlog
    obtain ⟨u, hu, hlu⟩ := List.mem_map.mp hlog
    rw [← hlu]
    exact hne u (by rw [scheduledVideoStatsFetch_updates]; exact hu)

/-- Witness for C2: the due sample row in the sample pass, with the empty
sublist of updates (the untouched case), and the table/fold identification. -/
theorem c2_witness :
    (sampleStore.map (·.id)).Nodup ∧ sampleRow ∈ sampleStore ∧
    sampleRow.next_stat_fetch_at = some 0 ∧ (0 : ℚ) ≤ 0 ∧
    applyUpdates sampleStore
        (scheduledVideoStatsFetch sampleStore 0 sampleClock sampleApi).updates =
      sampleStore.map (fun r =>
        ((scheduledVideoStatsFetch sampleStore 0 sampleClock
          sampleApi).updates).foldl applyUpdate r) :=
  ⟨by decide, by decide, rfl, by decide,
   (c2_pass_leaves_future_or_untouched sampleStore 0 sampleClock sampleApi
     (by decide) sampleRow (by decide) 0 rfl (by decide) []
     (List.nil_sublist _)).2.2⟩

/-- C5: In a scheduler pass all accumulated VideoStatsLog rows are written in
one batch insert before any per-video schedule update; schedule updates are
issued one update operation per accumulated row; and the two kinds of writes
are failure-independent: the resulting `videos` table depends only on the
failure outcomes of the update operations (so a failed log insert does not
prevent the schedule updates), and the log table depends only on the failure
outcome of the insert (so failed schedule updates do not roll back the log
insert). -/
theorem c5_ordering_and_independence (store : List VideoRow)
    (currentTime : ℚ) (clock : ℕ → ℚ) (api : List String → List FetchedItem)
    (st : DbState) :
    (∀ i j,
      i < (passOps (scheduledVideoStatsFetch store currentTime clock
        api)).length →
      j < (passOps (scheduledVideoStatsFetch store currentTime clock
        api)).length →
      ((passOps (scheduledVideoStatsFetch store currentTime clock api)).getD i
        default).isInsert = true →
      ((passOps (scheduledVideoStatsFetch store currentTime clock api)).getD j
        default).isUpdate = true → i < j) ∧
    (passOps (scheduledVideoStatsFetch store currentTime clock api)).countP
        (·.isUpdate) =
      (scheduledVideoStatsFetch store currentTime clock api).updates.length ∧
    (∀ fails fails' : ℕ → Bool,
      (∀ k, k < (passOps (scheduledVideoStatsFetch store currentTime clock
          api)).length →
        ((passOps (scheduledVideoStatsFetch store currentTime clock
          api)).getD k default).isUpdate = true → fails k = fails' k) →
      (execOps fails st
        (passOps (scheduledVideoStatsFetch store currentTime clock api))
        0).videos =
      (execOps fails' st
        (passOps (scheduledVideoStatsFetch store currentTime clock api))
        0).videos) ∧
    (∀ fails fails' : ℕ → Bool,
      (∀ k, k < (passOps (scheduledVideoStatsFetch store currentTime clock
          api)).length →
        ((passOps (scheduledVideoStatsFetch store currentTime clock
          api)).getD k default).isInsert = true → fails k = fails' k) →
      (execOps fails st
        (passOps (scheduledVideoStatsFetch store currentTime clock api))
        0).videoLogs =
      (execOps fails' st
        (passOps (scheduledVideoStatsFetch store currentTime clock api))
        0).videoLogs) := by
  set out := scheduledVideoStatsFetch store currentTime clock api with hout
  set ins : List VideoStoreOp :=
    if out.logs.isEmpty then [] else [VideoStoreOp.insertLogs out.logs]
    with hins
  have hops : passOps out = ins ++ out.updates.map VideoStoreOp.updateVideo :=
    rfl
  have hinslen : ins.length ≤ 1 := by
    rw [hins]
    split <;> simp
  have hinsmem : ∀ op ∈ ins, op.isInsert = true := by
    rw [hins]
    split
    · simp
    · simp [VideoStoreOp.isInsert]
  have hupdmem : ∀ op ∈ out.updates.map VideoStoreOp.updateVideo,
      op.isUpdate = true := by
    intro op hop
    obtain ⟨u, hu, hop'⟩ := List.mem_map.mp hop
    rw [← hop']
    rfl
  refine ⟨?_, ?_, ?_, ?_⟩
  · intro i j hi hj hiins hjupd
    rw [hops] at hi hj hiins hjupd
    have hilt : i < ins.length := by
      by_contra hile
      push_neg at hile
      have hjlen : i - ins.length <
          (out.updates.map VideoStoreOp.updateVideo).length := by
        rw [List.length_append] at hi
        omega
      rw [List.getD_eq_getElem _ _ (by rw [List.length_append]; omega),
        List.getElem_append_right hile] at hiins
      have := hupdmem _ (List.getElem_mem hjlen)
      cases hop : (out.updates.map VideoStoreOp.updateVideo)[i - ins.length]
        with
      | insertLogs rows =>
        have := hupdmem _ (hop ▸ List.getElem_mem hjlen)
        simp [VideoStoreOp.isUpdate] at this
      | updateVideo u =>
        rw [hop] at hiins
        simp [VideoStoreOp.isInsert] at hiins
    have hjge : ins.length ≤ j := by
      by_contra hjlt
      push_neg at hjlt
      rw [List.getD_eq_getElem _ _ (by rw [List.length_append]; omega),
        List.getElem_append_left hjlt] at hjupd
      have h1 := hinsmem _ (List.getElem_mem hjlt)
      cases hop : ins[j] with
      | insertLogs rows =>
        rw [hop] at hjupd
        simp [VideoStoreOp.isUpdate] at hjupd
      | updateVideo u =>
        have := hinsmem _ (hop ▸ List.getElem_mem hjlt)
        simp [VideoStoreOp.isInsert] at this
    omega
  · rw [hops, List.countP_append, List.countP_map]
    have h0 : ins.countP (·.isUpdate) = 0 := by
      rw [hins]
      split
      · rfl
      · rfl
    rw [h0]
    simp [Function.comp, VideoStoreOp.isUpdate]
  · intro fails fails' hagree
    exact execOps_videos_congr fails fails' _ st st 0 rfl
      (by simpa using hagree)
  · intro fails fails' hagree
    exact execOps_logs_congr fails fails' _ st st 0 rfl
      (by simpa using hagree)

/-- The boolean failure oracle making exactly the first issued operation (the
batch log insert) fail. -/
def failFirstOp : ℕ → Bool := fun k => k == 0

/-- The all-successful failure oracle. -/
def noFail : ℕ → Bool := fun _ => false

/-- Witness for C5: in the sample pass, failing the batch log insert leaves
the resulting `videos` table identical to the all-success run — the schedule
updates are still attempted and applied. -/
theorem c5_witness :
    (execOps failFirstOp ⟨sampleStore, []⟩
      (passOps (scheduledVideoStatsFetch sampleStore 0 sampleClock sampleApi))
      0).videos =
    (execOps noFail ⟨sampleStore, []⟩
      (passOps (scheduledVideoStatsFetch sampleStore 0 sampleClock sampleApi))
      0).videos :=
  (c5_ordering_and_independence sampleStore 0 sampleClock sampleApi
    ⟨sampleStore, []⟩).2.2.1 failFirstOp noFail (by decide)

/-- C6: Every on-demand channel info request that reaches a successful
channel upsert appends exactly one ChannelStatsLog row carrying the freshly
fetched subscriber/video/view counts, with no staleness check or
deduplication — two immediate identical requests yield two log rows; if the
channel upsert fails, the request aborts with HTTP 500 and no ChannelStatsLog
insert is attempted (the store is returned unchanged). -/
theorem c6_channel_log_unconditional_append (freshId ytid : String)
    (stats : ChannelStatsRaw) (nowISO : ℚ) (logInsertFails : Bool)
    (db : ChannelDb) :
    getChannelInfoPersist freshId ytid stats nowISO true logInsertFails db =
      (500, db) ∧
    (getChannelInfoPersist freshId ytid stats nowISO false false db).1 =
      200 ∧
    (getChannelInfoPersist freshId ytid stats nowISO false false
        db).2.channelLogs =
      db.channelLogs ++
        [{ channel_id := (upsertChannel freshId db.channels ytid stats
              nowISO).2
           created_at := nowISO
           subscriber_count := statToCount stats.subscriberCount
           video_count := statToCount stats.videoCount
           total_view_count := statToCount stats.viewCount }] ∧
    ((getChannelInfoPersist freshId ytid stats nowISO false false
        (getChannelInfoPersist freshId ytid stats nowISO false false
          db).2).2.channelLogs.length = db.channelLogs.length + 2) := by
  refine ⟨rfl, rfl, rfl, ?_⟩
  simp [getChannelInfoPersist]

/-- Witness-style concrete run for C6 at explicit inputs (the theorem has no
proposition hypotheses; this instantiates it at a concrete request). -/
theorem c6_witness :
    getChannelInfoPersist "uuid-1" "UCx" ⟨some "10", some "2", some "100"⟩
        0 true false ⟨[], []⟩ = (500, ⟨[], []⟩) ∧
    (getChannelInfoPersist "uuid-1" "UCx" ⟨some "10", some "2", some "100"⟩
        0 false false ⟨[], []⟩).1 = 200 ∧
    (getChannelInfoPersist "uuid-1" "UCx" ⟨some "10", some "2", some "100"⟩
        0 false false ⟨[], []⟩).2.channelLogs =
      [] ++ [{ channel_id := (upsertChannel "uuid-1" [] "UCx"
                 ⟨some "10", some "2", some "100"⟩ 0).2
               created_at := 0
               subscriber_count := statToCount (some "10")
               video_count := statToCount (some "2")
               total_view_count := statToCount (some "100") }] ∧
    (getChannelInfoPersist "uuid-1" "UCx" ⟨some "10", some "2", some "100"⟩
        0 false false
        (getChannelInfoPersist "uuid-1" "UCx"
          ⟨some "10", some "2", some "100"⟩ 0 false false
          ⟨[], []⟩).2).2.channelLogs.length = ([] : List ChannelStatsLogRow).length + 2 :=
  c6_channel_log_unconditional_append "uuid-1" "UCx"
    ⟨some "10", some "2", some "100"⟩ 0 false ⟨[], []⟩

theorem jsStartsWith_UC_not_at (s : String)
    (h : jsStartsWith s "UC" = true) : jsStartsWith s "@" = false := by
  unfold jsStartsWith at h ⊢
  have hUC : ("UC" : String).data = ['U', 'C'] := rfl
  have hAt : ("@" : String).data = ['@'] := rfl
  rw [hUC] at h
  rw [hAt]
  cases hd : s.data with
  | nil =>
    rw [hd] at h
    simp [List.isPrefixOf] at h
  | cons c cs =>
    rw [hd] at h
    simp [List.isPrefixOf] at h ⊢
    intro hc
    rw [← hc] at h
    exact absurd h.1 (by decide)

/-- C7 is false on the code of `extractDirectIdentifier` and its `POST`
fallback: for the bare 24-character `UC`-prefixed non-URL input
`"UC0123456789012345678901"`, direct extraction fails (there is no bare-`UC`
strategy in that resolver) and the pipeline issues one general name-search
call — not zero — reporting 404 when the search is empty. -/
theorem c7_counterexample :
    extractDirectIdentifier (fun _ => none) (fun _ => none)
      "UC0123456789012345678901" = (ResolveResult.failure, 0) ∧
    (resolveViaPost
      (extractDirectIdentifier (fun _ => none) (fun _ => none))
      (fun _ => none) "UC0123456789012345678901").2 = 1 ∧
    ¬((resolveViaPost
      (extractDirectIdentifier (fun _ => none) (fun _ => none))
      (fun _ => none) "UC0123456789012345678901").2 = 0) ∧
    (resolveViaPost
      (extractDirectIdentifier (fun _ => none) (fun _ => none))
      (fun _ => none) "UC0123456789012345678901").1 =
      PostResolution.notFound := by
  refine ⟨?_, ?_, ?_, ?_⟩ <;> decide

/-- C7 (amended): the two resolver revisions diverge on a bare 24-character
`UC`-prefixed non-URL input.  `extractChannelIdentifier` (the unnamed
revision) uses it directly as the canonical channel id with no search call;
`extractDirectIdentifier` (the named route) has no bare-`UC` strategy, so
such an input falls through — like any input matching no direct strategy —
to the `POST` handler's general name search (exactly one search call), whose
empty result is reported as 404 channel-not-found.  In both pipelines a
direct-strategy hit is used as-is with no extra search, and only a direct
failure reaches the general name search. -/
theorem c7_amended_bare_uc_resolution :
    (∀ (parseUrl : String → Option (List String))
       (search : String → Option String) (s : String),
      containsChar s '/' = false → containsChar s '.' = false →
      jsStartsWith (jsToLower s) "http" = false →
      jsStartsWith s "UC" = true → s.length = 24 →
      extractChannelIdentifier parseUrl search s =
        (ResolveResult.chanId s, 0)) ∧
    (∀ (parseUrl : String → Option (List String))
       (search : String → Option String) (s : String),
      containsChar s '/' = false → containsChar s '.' = false →
      jsStartsWith s "UC" = true →
      extractDirectIdentifier parseUrl search s =
        (ResolveResult.failure, 0) ∧
      resolveViaPost (extractDirectIdentifier parseUrl search) search s =
        (match search s with
         | some cid => (PostResolution.ident (ResolveResult.chanId cid), 1)
         | none => (PostResolution.notFound, 1))) ∧
    (∀ (extract : String → ResolveResult × ℕ)
       (search : String → Option String) (input : String)
       (r : ResolveResult) (n : ℕ),
      extract input = (r, n) → r ≠ ResolveResult.failure →
      resolveViaPost extract search input = (PostResolution.ident r, n)) ∧
    (∀ (extract : String → ResolveResult × ℕ)
       (search : String → Option String) (input : String) (n : ℕ),
      extract input = (ResolveResult.failure, n) → search input = none →
      resolveViaPost extract search input = (PostResolution.notFound, n + 1)) := by
  refine ⟨?_, ?_, ?_, ?_⟩
  · intro parseUrl search s hslash hdot dhttp hUC hlen
    have hAt : jsStartsWith s "@" = false := jsStartsWith_UC_not_at s hUC
    simp [extractChannelIdentifier, hslash, hdot, dhttp, hAt, hUC, hlen]
  · intro parseUrl search s hslash hdot hUC
    have hAt : jsStartsWith s "@" = false := jsStartsWith_UC_not_at s hUC
    have hdir : extractDirectIdentifier parseUrl search s =
        (ResolveResult.failure, 0) := by
      rw [extractDirectIdentifier]
      simp [hslash, hdot, hAt]
    refine ⟨hdir, ?_⟩
    rw [resolveViaPost, hdir]
  · intro extract search input r n hex hne
    rw [resolveViaPost, hex]
    cases r with
    | failure => exact absurd rfl hne
    | chanId cid => rfl
    | forUsername u => rfl
  · intro extract search input n hex hs
    rw [resolveViaPost, hex, hs]

/-- Witness for the amended C7 at the concrete bare id
`"UCabcdefghijklmnopqrstuv"` (24 characters), with an always-successful and
an always-empty search oracle. -/
theorem c7_amended_witness :
    extractChannelIdentifier (fun _ => none) (fun _ => some "UCfound")
      "UCabcdefghijklmnopqrstuv" =
      (ResolveResult.chanId "UCabcdefghijklmnopqrstuv", 0) ∧
    extractDirectIdentifier (fun _ => none) (fun _ => some "UCfound")
      "UCabcdefghijklmnopqrstuv" = (ResolveResult.failure, 0) ∧
    resolveViaPost
      (extractDirectIdentifier (fun _ => none) (fun _ => some "UCfound"))
      (fun _ => some "UCfound") "UCabcdefghijklmnopqrstuv" =
      (PostResolution.ident (ResolveResult.chanId "UCfound"), 1) :=
  ⟨c7_amended_bare_uc_resolution.1 (fun _ => none) (fun _ => some "UCfound")
    "UCabcdefghijklmnopqrstuv" (by decide) (by decide) (by decide) (by decide)
    (by decide),
   (c7_amended_bare_uc_resolution.2.1 (fun _ => none)
    (fun _ => some "UCfound") "UCabcdefghijklmnopqrstuv" (by decide)
    (by decide) (by decide)).1,
   (c7_amended_bare_uc_resolution.2.1 (fun _ => none)
    (fun _ => some "UCfound") "UCabcdefghijklmnopqrstuv" (by decide)
    (by decide) (by decide)).2⟩

/-- C9: On first discovery of a video through the channel-videos import, its
initial `next_stat_fetch_at` is set to the discovery-time clock read plus one
hour and `stat_fetch_frequency_hours` is set to 1 (and
`last_stat_logged_at` to the adjacent clock read), for every imported video
and regardless of its publish time — independent of the age-based policy. -/
theorem c9_initial_one_hour (supabaseChannelId : String) (clock : ℕ → ℚ)
    (items : List ImportVideoItem) (k : ℕ) :
    ∀ rec ∈ importVideos supabaseChannelId clock items k,
      ∃ j, rec.next_stat_fetch_at = some (clock j + 60 * 60 * 1000) ∧
        rec.stat_fetch_frequency_hours = some 1 ∧
        rec.last_stat_logged_at = some (clock (j + 1)) := by
  induction items generalizing k with
  | nil =>
    intro rec h
    simp [importVideos] at h
  | cons v rest ih =>
    intro rec hrec
    cases hid : v.id with
    | none =>
      simp only [importVideos, hid] at hrec
      exact ih k rec hrec
    | some vid =>
      simp only [importVideos, hid] at hrec
      by_cases hv : vid = ""
      · rw [if_pos hv] at hrec
        exact ih k rec hrec
      · rw [if_neg hv] at hrec
        rcases List.mem_cons.mp hrec with h | h
        · exact ⟨k, by rw [h]; exact ⟨rfl, rfl, rfl⟩⟩
        · exact ih (k + 2) rec h

/-- Witness for C9: a one-item import at clock reads 1000 and 1001. -/
theorem c9_witness :
    ∃ j, (buildVideoToSave "chan" (sampleClock 0) (sampleClock 1) "v1"
        (some 0)).next_stat_fetch_at =
          some (sampleClock j + 60 * 60 * 1000) ∧
      (buildVideoToSave "chan" (sampleClock 0) (sampleClock 1) "v1"
        (some 0)).stat_fetch_frequency_hours = some 1 ∧
      (buildVideoToSave "chan" (sampleClock 0) (sampleClock 1) "v1"
        (some 0)).last_stat_logged_at = some (sampleClock (j + 1)) :=
  c9_initial_one_hour "chan" sampleClock [⟨some "v1", some 0⟩] 0
    (buildVideoToSave "chan" (sampleClock 0) (sampleClock 1) "v1" (some 0))
    (by simp only [importVideos]
        rw [if_neg (by decide : ¬("v1" = ""))]
        exact List.mem_singleton_self _)

/-- C10: A repeated channel-videos import overwrites an existing video row's
scheduling fields through the upsert keyed on `youtube_video_id`:
`next_stat_fetch_at` is reset to the new discovery time plus one hour,
`stat_fetch_frequency_hours` to 1 and `last_stat_logged_at` to the new
discovery time, regardless of the values previously written by the scheduler
— so `next_stat_fetch_at` can move strictly backward through this path. -/
theorem c10_reimport_overwrites_schedule (freshId : String)
    (store : List VideoRow) (r : VideoUpsertRecord) (i : ℕ)
    (hi : i < store.length)
    (hmatch : (store.getD i default).youtube_video_id =
      r.youtube_video_id) :
    (upsertVideoRecord freshId store r).length = store.length ∧
    (upsertVideoRecord freshId store r).getD i default =
      { store.getD i default with
        published_at := r.published_at
        next_stat_fetch_at := r.next_stat_fetch_at
        stat_fetch_frequency_hours := r.stat_fetch_frequency_hours
        last_stat_logged_at := r.last_stat_logged_at } ∧
    (∀ (supabaseChannelId vid : String) (nowA nowB : ℚ) (pub : Option ℚ),
      r = buildVideoToSave supabaseChannelId nowA nowB vid pub →
      ((upsertVideoRecord freshId store r).getD i
          default).next_stat_fetch_at = some (nowA + 60 * 60 * 1000) ∧
      ((upsertVideoRecord freshId store r).getD i
          default).stat_fetch_frequency_hours = some 1 ∧
      ((upsertVideoRecord freshId store r).getD i
          default).last_stat_logged_at = some nowB) ∧
    (∀ told tnew : ℚ,
      (store.getD i default).next_stat_fetch_at = some told →
      r.next_stat_fetch_at = some tnew → tnew < told →
      ∃ t', ((upsertVideoRecord freshId store r).getD i
          default).next_stat_fetch_at = some t' ∧ t' < told) := by
  have hany : store.any
      (fun row => row.youtube_video_id == r.youtube_video_id) = true := by
    refine List.any_eq_true.mpr ⟨store.getD i default, ?_, ?_⟩
    · rw [List.getD_eq_getElem _ _ hi]
      exact List.getElem_mem hi
    · exact beq_iff_eq.mpr hmatch
  have hup : upsertVideoRecord freshId store r =
      store.map (fun row =>
        if row.youtube_video_id = r.youtube_video_id then
          { row with
            published_at := r.published_at
            next_stat_fetch_at := r.next_stat_fetch_at
            stat_fetch_frequency_hours := r.stat_fetch_frequency_hours
            last_stat_logged_at := r.last_stat_logged_at }
        else row) := by
    rw [upsertVideoRecord, if_pos hany]
  have h2 : (upsertVideoRecord freshId store r).getD i default =
      { store.getD i default with
        published_at := r.published_at
        next_stat_fetch_at := r.next_stat_fetch_at
        stat_fetch_frequency_hours := r.stat_fetch_frequency_hours
        last_stat_logged_at := r.last_stat_logged_at } := by
    rw [hup]
    rw [List.getD_eq_getElem _ _ (by rw [List.length_map]; exact hi)]
    simp only [List.getElem_map]
    rw [List.getD_eq_getElem _ _ hi] at hmatch ⊢
    rw [if_pos hmatch]
  refine ⟨by rw [hup, List.length_map], h2, ?_, ?_⟩
  · intro supabaseChannelId vid nowA nowB pub hr
    rw [h2, hr]
    exact ⟨rfl, rfl, rfl⟩
  · intro told tnew htold htnew hlt
    refine ⟨tnew, ?_, hlt⟩
    rw [h2]
    exact htnew

/-- A stored row whose scheduler-written due time is far in the future. -/
def rowLate : VideoRow :=
  { sampleRow with next_stat_fetch_at := some 10000000000 }

def lateStore : List VideoRow := [rowLate]

/-- Witness for C10: re-importing the video at discovery time 100 moves the
stored `next_stat_fetch_at` backward from 10000000000 to 100 + 1h. -/
theorem c10_witness :
    0 < lateStore.length ∧
    (lateStore.getD 0 default).youtube_video_id =
      (buildVideoToSave "chan" 100 101 "yt-a" (some 0)).youtube_video_id ∧
    ∃ t', ((upsertVideoRecord "fresh" lateStore
        (buildVideoToSave "chan" 100 101 "yt-a" (some 0))).getD 0
        default).next_stat_fetch_at = some t' ∧ t' < 10000000000 :=
  ⟨by decide, by decide,
   (c10_reimport_overwrites_schedule "fresh" lateStore
      (buildVideoToSave "chan" 100 101 "yt-a" (some 0)) 0 (by decide)
      (by decide)).2.2.2 10000000000 (100 + 60 * 60 * 1000) rfl rfl
      (by norm_num)⟩
